import Mathlib

/-!
Verification of the `dailies` calendar core: the file-backed event store
(`src/backend/local_dir.rs`) and the interaction state machine's
reconciliation logic (`src/widget/schedule_ui/interaction.rs`).

Timestamps (`chrono::DateTime<chrono::Local>`) are modelled as `Int`
minutes in the single local time zone; a calendar day is the block of
`minutesPerDay` consecutive minutes starting at a multiple of
`minutesPerDay`.  Durations (`chrono::Duration`) are likewise `Int`
minutes.  The external ICS parser and generator (out of scope per the
spec) are abstracted as function parameters.
-/

/-- Event identity (`EventId` is a string alias in the sources). -/
abbrev EventId := String

/-- Modelled from the spec: the `Event` value type (its defining module
`src/event.rs` is not among the sources; only its use sites are).
Fields follow the spec's data model: identity, start/end timestamps,
title, and the `changed` dirty marker. The source field `end` is a Lean
keyword, hence the guillemets. -/
structure Event where
  id : EventId
  start : Int
  «end» : Int
  title : String
  changed : Bool
deriving DecidableEq, Repr

/-- Modelled from the spec: `Event::mark_changed` (defined in the missing
`src/event.rs`) sets the `changed` dirty marker. -/
def mark_changed (e : Event) : Event :=
  { e with changed := true }

/-- Outcome of running a Rust code path that may panic (`expect`/`unwrap`). -/
inductive RunResult (α : Type) where
  | ok : α → RunResult α
  | panicked : String → RunResult α
deriving DecidableEq, Repr

/-- One entry of the store directory: file name (within the directory),
whether it is a regular file, whether the `DirEntry::file_type()`
metadata call fails with an I/O error for this entry, and its content
(`none` models a file whose bytes cannot be read or are not valid
UTF-8). -/
structure DirEntry where
  name : String
  isFile : Bool
  fileTypeError : Bool
  content : Option String
deriving DecidableEq, Repr

/-- The file-backed store `LocalDir` together with the state of the
medium: current directory contents, the calendar name, and flags for the
I/O failures the source reacts to (`read_dir`, `fs::write`,
`fs::remove_file` returning `Err`). -/
structure LocalDir where
  dir : List DirEntry
  calendar : String
  readDirError : Bool
  writeError : Bool
  removeError : Bool
deriving DecidableEq, Repr

/-- `std::path::Path::extension` on a file name: the part after the last
dot, or `none` when there is no dot or the only dot leads a hidden file
(a name beginning with its sole dot). -/
def path_extension (name : String) : Option String :=
  let rev := name.toList.reverse
  if rev.contains '.' then
    let after_last_dot := rev.takeWhile fun c => ¬ c = '.'
    let from_last_dot := rev.dropWhile fun c => ¬ c = '.'
    if from_last_dot = ['.'] then none
    else some (String.mk after_last_dot.reverse)
  else none

/-- `LocalDir::event_path`: the file name derived from an identity
(`"{event_id}.ics"` pushed onto the directory path). -/
def event_path (event_id : EventId) : String :=
  event_id ++ ".ics"

/-- `LocalDir::all_event_file_entries`: enumerates the directory and
keeps the regular files with extension `ics`.  Two panic sites of the
source are modelled: `read_dir` failing aborts via
`expect("read_dir failed")`, and `entry.file_type().unwrap()` aborts
when the per-entry metadata call fails — the latter runs on every
enumerated entry once the iterator is consumed, so a single bad entry
aborts the whole scan even after a successful `read_dir`. -/
def all_event_file_entries (d : LocalDir) : RunResult (List DirEntry) :=
  if d.readDirError then
    .panicked "read_dir failed"
  else if d.dir.any (fun entry => entry.fileTypeError) then
    .panicked "called Result::unwrap() on an Err value"
  else
    .ok (d.dir.filter fun entry =>
      entry.isFile && path_extension entry.name == some "ics")

/-- `LocalDir::all_events`: parse each surviving entry's file, silently
skipping entries that cannot be read or parsed.  `parse` abstracts the
external `ICal.parse(&self.calendar, &string)`. -/
def all_events (parse : String → String → Option Event) (d : LocalDir) :
    RunResult (List Event) :=
  match all_event_file_entries d with
  | .panicked msg => .panicked msg
  | .ok entries =>
      .ok (entries.filterMap fun entry => entry.content.bind (parse d.calendar))

/-- `event_visible_in_range` from `local_dir.rs`:
`e.start.max(start) <= e.end.min(end)`. -/
def event_visible_in_range (e : Event) (start «end» : Int) : Bool :=
  max e.start start ≤ min e.«end» «end»

/-- `<LocalDir as Backend>::get_events`: keep every parsed event visible
in the queried range; the source always returns `Some(events)`. -/
def get_events (parse : String → String → Option Event) (d : LocalDir)
    (from_ to_ : Int) : RunResult (Option (List Event)) :=
  match all_events parse d with
  | .panicked msg => .panicked msg
  | .ok events =>
      .ok (some (events.filter fun event => event_visible_in_range event from_ to_))

/-- `Path::exists` over the modelled directory. -/
def path_exists (d : LocalDir) (name : String) : Bool :=
  d.dir.any fun entry => entry.name == name

/-- `std::fs::remove_file`: fails when the medium reports an error,
otherwise drops the named entry. -/
def remove_file (d : LocalDir) (name : String) : Option LocalDir :=
  if d.removeError then none
  else some { d with dir := d.dir.filter fun entry => ¬ entry.name = name }

/-- `std::fs::write`: fails when the medium reports an error, otherwise
creates or truncates the named regular file with the given content. -/
def write_file (d : LocalDir) (name content : String) : Option LocalDir :=
  if d.writeError then none
  else if d.dir.any (fun entry => entry.name == name) then
    some { d with dir := d.dir.map fun entry =>
      if entry.name = name then { entry with isFile := true, content := some content }
      else entry }
  else
    some { d with dir := d.dir ++ [⟨name, true, false, some content⟩] }

/-- `<LocalDir as Backend>::delete_event`: remove the file at the derived
path if it exists (propagating a removal failure), succeed silently
otherwise.  Returns the operation result paired with the store state. -/
def delete_event (d : LocalDir) (event_id : EventId) :
    Option Unit × LocalDir :=
  let path := event_path event_id
  if path_exists d path then
    match remove_file d path with
    | none => (none, d)
    | some d2 => (some (), d2)
  else
    (some (), d)

/-- `<LocalDir as Backend>::update_event`: serialize (abstracted external
`ICal.generate`), check `path.exists()` only for a to-do warning (no
effect), then write to the derived path. -/
def update_event (generate : Event → Option String) (d : LocalDir)
    (updated_event : Event) : Option Unit × LocalDir :=
  match generate updated_event with
  | none => (none, d)
  | some ics_content =>
      let _warn_missing := ¬ path_exists d (event_path updated_event.id)
      match write_file d (event_path updated_event.id) ics_content with
      | none => (none, d)
      | some d2 => (some (), d2)

/-- `<LocalDir as Backend>::create_event`: serialize, then write to the
derived path. -/
def create_event (generate : Event → Option String) (d : LocalDir)
    (event : Event) : Option Unit × LocalDir :=
  match generate event with
  | none => (none, d)
  | some ics_content =>
      match write_file d (event_path event.id) ics_content with
      | none => (none, d)
      | some d2 => (some (), d2)

/-! ## Interaction state machine (`src/widget/schedule_ui/interaction.rs`) -/

/-- `FocusedEventState` from `interaction.rs`. -/
inductive FocusedEventState where
  | Editing
  | Dragging
  | DraggingEventStart
  | DraggingEventEnd
  | EventCloning
deriving DecidableEq, Repr

/-- The transient interaction record: working copy plus state. -/
structure InteractingEvent where
  event : Event
  state : FocusedEventState
deriving DecidableEq, Repr

/-- The egui `ui.memory().data` scratch slots the interaction code uses.
`insert_temp` keys by (id, type), so the `InteractingEvent` slot and the
committed `Event` slot are distinct even though both use
`InteractingEvent::id()`; the deleted-event marker has its own id. -/
structure UiMemory where
  interacting : Option InteractingEvent
  commited : Option Event
  deleted : Option EventId
deriving DecidableEq, Repr

/-- `InteractingEvent::set`: store the record in its slot. -/
def InteractingEvent.set (ui : UiMemory) (event : Event)
    (state : FocusedEventState) : UiMemory :=
  { ui with interacting := some ⟨event, state⟩ }

/-- `InteractingEvent::discard`: drop the transient record. -/
def InteractingEvent.discard (ui : UiMemory) : UiMemory :=
  { ui with interacting := none }

/-- `InteractingEvent::commit`: place the working event in the committed
slot, then discard the transient record. -/
def InteractingEvent.commit (ie : InteractingEvent) (ui : UiMemory) : UiMemory :=
  InteractingEvent.discard { ui with commited := some ie.event }

/-- `InteractingEvent::take_commited_event`: read and clear the committed
slot. -/
def take_commited_event (ui : UiMemory) : Option Event × UiMemory :=
  (ui.commited, { ui with commited := none })

/-- `DeletedEvent::set`: record the pending deletion identity. -/
def DeletedEvent.set (ui : UiMemory) (event_id : EventId) : UiMemory :=
  { ui with deleted := some event_id }

/-- `DeletedEvent::take`: read and clear the pending deletion identity. -/
def DeletedEvent.take (ui : UiMemory) : Option EventId × UiMemory :=
  (ui.deleted, { ui with deleted := none })

/-- `state_override` from `interaction.rs`: editing overrides any
existing drag state; otherwise the old state is kept. -/
def state_override (old_state new_state : FocusedEventState) :
    FocusedEventState :=
  if new_state = FocusedEventState.Editing then new_state
  else old_state

/-- `commit_updated_event` from `interaction.rs`: overwrite every
authoritative entry whose identity matches the committed event — the
source calls `event.mark_changed()` on the entry and then assigns
`*event = commited_event.clone()`, so the stored value is exactly the
committed event (the mark on the old value is dead) — and, when no entry
matched, push the committed event after marking it changed. -/
def commit_updated_event (events : List Event) (commited_event : Event) :
    List Event :=
  let updated := events.any fun event => event.id == commited_event.id
  let events2 := events.map fun event =>
    if event.id = commited_event.id then
      let _dead := mark_changed event
      commited_event
    else event
  if updated then events2
  else events ++ [mark_changed commited_event]

/-- `remove_deleted_events` from `interaction.rs`:
`events.retain(|x| x.id != deleted_event_id)`. -/
def remove_deleted_events (events : List Event) (deleted_event_id : EventId) :
    List Event :=
  events.filter fun x => ¬ x.id = deleted_event_id

/-- `ScheduleUi::apply_interacting_events`: once per frame, drain the
committed slot into the authoritative list, then drain the pending
deletion. -/
def apply_interacting_events (ui : UiMemory) (events : List Event) :
    UiMemory × List Event :=
  let (ce, ui1) := take_commited_event ui
  let events1 := match ce with
    | some event => commit_updated_event events event
    | none => events
  let (de, ui2) := DeletedEvent.take ui1
  let events2 := match de with
    | some event_id => remove_deleted_events events1 event_id
    | none => events1
  (ui2, events2)

/-! ## Time helpers and gesture geometry

`reorder_times` and `on_the_same_day` live in `src/util.rs` and
`ScheduleUi::day_progress`, `move_event_start`, `move_event_end` in
`src/widget/schedule_ui.rs`, none of which are among the sources; they
are modelled from the spec. -/

/-- Minutes in one calendar day of the single local time zone. -/
def minutesPerDay : Int := 1440

/-- Modelled from the spec: `util::reorder_times` (missing `src/util.rs`)
reorders a candidate pair so the earlier timestamp is the tentative
start, reporting whether a swap happened. -/
def reorder_times (start «end» : Int) : Int × Int × Bool :=
  if «end» < start then («end», start, true) else (start, «end», false)

/-- Modelled from the spec: `util::on_the_same_day` (missing
`src/util.rs`) tests whether two timestamps fall on the same calendar
day. -/
def on_the_same_day (a b : Int) : Bool :=
  a / minutesPerDay = b / minutesPerDay

/-- Modelled from the spec: `ScheduleUi::day_progress` (missing
`src/widget/schedule_ui.rs`) gives the fraction of its day a timestamp
has passed; the source compares it with `0.5`, so only the test
"progress < 1/2", i.e. the minute-of-day is below half a day, is
modelled. -/
def day_progress_lt_half (t : Int) : Bool :=
  t % minutesPerDay < minutesPerDay / 2

/-- `ScheduleUi::assign_new_event_dates` from `interaction.rs`: reorder
anchor (`init_time`) and current pointer time, fall back to a
minimum-duration span anchored at `init_time` when the pair crosses a day
boundary (direction picked by the anchor's day progress), write the
resulting interval into the working event, and choose the next drag state
from whether the pair was reordered. -/
def assign_new_event_dates (min_event_duration : Int) (init_time new_time : Int)
    (event : Event) : Event × FocusedEventState :=
  let (start0, end0, reordered) := reorder_times init_time new_time
  let (start, «end») :=
    if ¬ on_the_same_day start0 end0 then
      if day_progress_lt_half init_time then
        (init_time, init_time + min_event_duration)
      else
        (init_time - min_event_duration, init_time)
    else (start0, end0)
  ({ event with start := start, «end» := «end» },
   if reordered then FocusedEventState.DraggingEventStart
   else FocusedEventState.DraggingEventEnd)

/-- Modelled from the spec: `move_event_start` (missing
`src/widget/schedule_ui.rs`) sets the working event's start to the
pointer-mapped timestamp, clamped so that resizing past
`end - min_event_duration` pins the start at exactly
`end - min_event_duration`. -/
def move_event_start (event : Event) (time min_event_duration : Int) : Event :=
  { event with start := min time (event.«end» - min_event_duration) }

/-- Modelled from the spec: `move_event_end` (missing
`src/widget/schedule_ui.rs`) sets the working event's end to the
pointer-mapped timestamp, clamped so that resizing past
`start + min_event_duration` pins the end at exactly
`start + min_event_duration`. -/
def move_event_end (event : Event) (time min_event_duration : Int) : Event :=
  { event with «end» := max time (event.start + min_event_duration) }

/-- One frame of `ScheduleUi::interact_event` in the `DraggingEventStart`
state, as driven by `handle_event_resizing`: when the drag has ended the
frame commits (`some true`) without touching the event; otherwise, when
the pointer maps to a timestamp, `move_event_start` is applied and the
interaction continues (`none`). -/
def resize_start_frame (min_event_duration : Int) (dragging : Bool)
    (pointer_time : Option Int) (event : Event) : Option Bool × Event :=
  if ¬ dragging then (some true, event)
  else
    match pointer_time with
    | none => (none, event)
    | some time => (none, move_event_start event time min_event_duration)

/-! ## Fixtures used by the closed witness theorems -/

/-- A concrete stand-in for the external ICS parser: recognizes the two
artifacts used in the witnesses. -/
def parse0 : String → String → Option Event := fun _cal s =>
  if s = "E1" then some ⟨"e1", 2, 5, "one", false⟩ else none

/-- A store holding one well-formed event file, with a healthy medium. -/
def sampleStore : LocalDir :=
  ⟨[⟨"e1.ics", true, false, some "E1"⟩], "cal", false, false, false⟩

/-- The event persisted in `sampleStore`. -/
def sampleEvent : Event := ⟨"e1", 2, 5, "one", false⟩

/-- A store whose directory enumeration fails with an I/O error. -/
def brokenStore : LocalDir := ⟨[], "cal", true, false, false⟩

/-- A store whose enumeration succeeds but whose single entry's
`file_type()` metadata call fails with an I/O error. -/
def metaBrokenStore : LocalDir :=
  ⟨[⟨"e1.ics", true, true, some "E1"⟩], "cal", false, false, false⟩

/-- The events of a store visible to a range scan, i.e. the payload of
`all_events` when enumeration succeeds. -/
def stored_events (parse : String → String → Option Event) (d : LocalDir) :
    List Event :=
  (d.dir.filter fun entry =>
      entry.isFile && path_extension entry.name == some "ics").filterMap
    fun entry => entry.content.bind (parse d.calendar)

theorem all_events_ok (parse : String → String → Option Event) (d : LocalDir)
    (hrd : d.readDirError = false)
    (hft : ∀ en ∈ d.dir, en.fileTypeError = false) :
    all_events parse d = .ok (stored_events parse d) := by
  have hft2 : d.dir.any (fun entry => entry.fileTypeError) = false := by
    rw [List.any_eq_false]
    intro en hen
    simp [hft en hen]
  simp [all_events, all_event_file_entries, stored_events, hrd, hft2]


/-! ## Claim theorems -/

/-- Claim C1: for every persisted event `E` and query interval
`[f, t]`, `get_events` on the file-backed store — run where it returns
at all, i.e. where neither `read_dir` nor a per-entry `file_type()`
metadata call fails (each would abort the scan) — includes `E` in its
result iff `max(E.start, f) ≤ min(E.end, t)`; in particular an event
whose range merely touches the interval at an endpoint (`E.end = f` or
`E.start = t`) is included. -/
theorem get_events_overlap_iff
    (parse : String → String → Option Event) (d : LocalDir) (f t : Int)
    (E : Event)
    (hrd : d.readDirError = false)
    (hft : ∀ en ∈ d.dir, en.fileTypeError = false)
    (hpers : ∃ en ∈ d.dir, en.isFile = true
      ∧ path_extension en.name = some "ics"
      ∧ en.content.bind (parse d.calendar) = some E) :
    ∃ l, get_events parse d f t = .ok (some l) ∧
      (E ∈ l ↔ max E.start f ≤ min E.«end» t) ∧
      (E.start ≤ E.«end» → f ≤ t → (E.«end» = f ∨ E.start = t) → E ∈ l) := by
  have hall : all_events parse d = .ok (stored_events parse d) :=
    all_events_ok parse d hrd hft
  have hmem : E ∈ stored_events parse d := by
    rcases hpers with ⟨en, hin, hf, hext, hparse⟩
    refine List.mem_filterMap.mpr ⟨en, List.mem_filter.mpr ⟨hin, ?_⟩, hparse⟩
    simp [hf, hext]
  refine ⟨(stored_events parse d).filter
      (fun event => event_visible_in_range event f t), ?_, ?_, ?_⟩
  · simp [get_events, hall]
  · constructor
    · intro h
      have := (List.mem_filter.mp h).2
      simpa [event_visible_in_range] using this
    · intro h
      exact List.mem_filter.mpr ⟨hmem, by simpa [event_visible_in_range] using h⟩
  · intro hse hft hor
    refine List.mem_filter.mpr ⟨hmem, ?_⟩
    simp only [event_visible_in_range, decide_eq_true_eq]
    rcases hor with h | h <;> simp [h] <;> omega

theorem get_events_overlap_iff_witness :
    ∃ l, get_events parse0 sampleStore 5 9 = .ok (some l) ∧
      (sampleEvent ∈ l ↔
        max sampleEvent.start 5 ≤ min sampleEvent.«end» 9) ∧
      (sampleEvent.start ≤ sampleEvent.«end» → (5 : Int) ≤ 9 →
        (sampleEvent.«end» = 5 ∨ sampleEvent.start = 9) →
        sampleEvent ∈ l) :=
  get_events_overlap_iff parse0 sampleStore 5 9 sampleEvent rfl (by decide)
    ⟨⟨"e1.ics", true, false, some "E1"⟩, by decide⟩

/-- Claim C3, counterexample: `get_events` never returns a failure
result on an enumeration-level I/O error — it aborts instead, at either
of the scan's two panic sites: `read_dir()` failing trips
`expect("read_dir failed")`, and even after a successful `read_dir` a
failing per-entry `file_type()` metadata call trips its `unwrap()`.
This refutes "returns a failure ... when enumerating the directory
fails" and "never aborts". -/
theorem get_events_aborts_on_enumeration_io_error :
    get_events parse0 brokenStore 0 1 = .panicked "read_dir failed" ∧
    get_events parse0 metaBrokenStore 0 1
      = .panicked "called Result::unwrap() on an Err value" := by
  decide

/-- Claim C3 as amended: when directory enumeration and every per-entry
`file_type()` metadata call succeed, `get_events` always returns a
successful sequence (it never returns a failure), and that sequence is
empty when no persisted event overlaps the query interval; when
`read_dir` or a per-entry `file_type()` call fails with an I/O error
the source panics instead of returning a failure (see the
counterexample). -/
theorem get_events_empty_on_no_overlap
    (parse : String → String → Option Event) (d : LocalDir) (f t : Int)
    (hrd : d.readDirError = false)
    (hft : ∀ en ∈ d.dir, en.fileTypeError = false) :
    (∃ l, get_events parse d f t = .ok (some l)) ∧
    ((∀ E ∈ stored_events parse d, event_visible_in_range E f t = false) →
      get_events parse d f t = .ok (some [])) := by
  have hall : all_events parse d = .ok (stored_events parse d) :=
    all_events_ok parse d hrd hft
  constructor
  · exact ⟨(stored_events parse d).filter
      (fun event => event_visible_in_range event f t),
      by simp [get_events, hall]⟩
  · intro hno
    have : (stored_events parse d).filter
        (fun event => event_visible_in_range event f t) = [] := by
      refine List.filter_eq_nil_iff.mpr ?_
      intro E hE
      simp [hno E hE]
    simp [get_events, hall, this]

theorem get_events_empty_on_no_overlap_witness :
    (∃ l, get_events parse0 sampleStore 100 200 = .ok (some l)) ∧
    ((∀ E ∈ stored_events parse0 sampleStore,
        event_visible_in_range E 100 200 = false) →
      get_events parse0 sampleStore 100 200 = .ok (some [])) :=
  get_events_empty_on_no_overlap parse0 sampleStore 100 200 rfl (by decide)

/-- Claim C4: for every identity with no persisted record in the
file-backed store, `delete_event` returns success and leaves the store
state unchanged. -/
theorem delete_event_missing_id_noop (d : LocalDir) (event_id : EventId)
    (h : path_exists d (event_path event_id) = false) :
    delete_event d event_id = (some (), d) := by
  simp [delete_event, h]

theorem delete_event_missing_id_noop_witness :
    delete_event sampleStore "nope" = (some (), sampleStore) :=
  delete_event_missing_id_noop sampleStore "nope" (by decide)

/-- Claim C10: `create_event` and `update_event` on the file-backed store
are extensionally equal — for every serializer, store state and event
they produce the same operation result and the same resulting store
state (the only textual difference in the source is `update_event`'s
effect-free `path.exists()` check guarding a to-do warning). -/
theorem create_event_eq_update_event (generate : Event → Option String)
    (d : LocalDir) (e : Event) :
    create_event generate d e = update_event generate d e := by
  cases hg : generate e <;> simp [create_event, update_event, hg]

/-- Claim C2 (code bug), evaluated at the failing input: draining a
committed working copy whose identity matches an authoritative entry
replaces the entry with the committed value verbatim — the source's
`event.mark_changed()` on the matching entry is immediately overwritten
by `*event = commited_event.clone()` — so when the working copy's own
marker is unset the surviving entry's dirty marker is unset, contrary
to the claim; the append branch does set the marker. -/
theorem commit_replace_loses_dirty_marker :
    commit_updated_event [⟨"a", 0, 10, "old", false⟩] ⟨"a", 0, 10, "new", false⟩
      = [⟨"a", 0, 10, "new", false⟩] ∧
    (commit_updated_event [⟨"a", 0, 10, "old", false⟩]
        ⟨"a", 0, 10, "new", false⟩).all (fun e => e.changed = false) = true ∧
    commit_updated_event [⟨"a", 0, 10, "old", false⟩] ⟨"b", 3, 4, "fresh", false⟩
      = [⟨"a", 0, 10, "old", false⟩, ⟨"b", 3, 4, "fresh", true⟩] := by
  decide

/-- Claim C5: for every new-event drag whose anchor and pointer-mapped
timestamps, once reordered, fall on different calendar days: when the
anchor lies in the first half of its day the working event becomes
exactly `[anchor, anchor + minimum_duration)`, otherwise exactly
`[anchor - minimum_duration, anchor)`; and the resulting state is
`DraggingEventStart` exactly when the anchor is the later endpoint. -/
theorem assign_new_event_dates_cross_day
    (min_dur init_time new_time : Int) (ev : Event)
    (hcross : on_the_same_day (reorder_times init_time new_time).1
      (reorder_times init_time new_time).2.1 = false) :
    (day_progress_lt_half init_time = true →
      (assign_new_event_dates min_dur init_time new_time ev).1.start = init_time ∧
      (assign_new_event_dates min_dur init_time new_time ev).1.«end»
        = init_time + min_dur) ∧
    (day_progress_lt_half init_time = false →
      (assign_new_event_dates min_dur init_time new_time ev).1.start
        = init_time - min_dur ∧
      (assign_new_event_dates min_dur init_time new_time ev).1.«end» = init_time) ∧
    ((assign_new_event_dates min_dur init_time new_time ev).2
        = FocusedEventState.DraggingEventStart ↔ new_time < init_time) := by
  by_cases hn : new_time < init_time <;>
    by_cases hp : day_progress_lt_half init_time <;>
    simp [reorder_times, hn] at hcross <;>
    simp [assign_new_event_dates, reorder_times, hn, hp, hcross]

theorem assign_new_event_dates_cross_day_witness :
    (day_progress_lt_half 120 = true →
      (assign_new_event_dates 30 120 1500 ⟨"n", 0, 0, "", false⟩).1.start = 120 ∧
      (assign_new_event_dates 30 120 1500 ⟨"n", 0, 0, "", false⟩).1.«end»
        = 120 + 30) ∧
    (day_progress_lt_half 120 = false →
      (assign_new_event_dates 30 120 1500 ⟨"n", 0, 0, "", false⟩).1.start
        = 120 - 30 ∧
      (assign_new_event_dates 30 120 1500 ⟨"n", 0, 0, "", false⟩).1.«end» = 120) ∧
    ((assign_new_event_dates 30 120 1500 ⟨"n", 0, 0, "", false⟩).2
        = FocusedEventState.DraggingEventStart ↔ (1500 : Int) < 120) :=
  assign_new_event_dates_cross_day 30 120 1500 ⟨"n", 0, 0, "", false⟩ (by decide)

/-- Claim C6: during a `DraggingEventStart` resize frame, the working
event's start never exceeds `end - minimum_duration` whenever the
pointer maps to a timestamp; moving the pointer past
`end - minimum_duration` pins the start at exactly
`end - minimum_duration`; the end is untouched; and `start > end` is
never produced at any frame. -/
theorem resize_start_clamped
    (min_dur : Int) (dragging : Bool) (ptr : Option Int) (e : Event)
    (hmin : 0 ≤ min_dur) (hinv : e.start ≤ e.«end») :
    (resize_start_frame min_dur dragging ptr e).2.start
      ≤ (resize_start_frame min_dur dragging ptr e).2.«end» ∧
    (resize_start_frame min_dur dragging ptr e).2.«end» = e.«end» ∧
    (∀ t, dragging = true → ptr = some t →
      (resize_start_frame min_dur dragging ptr e).2.start
        ≤ e.«end» - min_dur) ∧
    (∀ t, dragging = true → ptr = some t → e.«end» - min_dur < t →
      (resize_start_frame min_dur dragging ptr e).2.start
        = e.«end» - min_dur) := by
  cases dragging <;> cases ptr <;>
    simp_all [resize_start_frame, move_event_start]
  all_goals omega

theorem resize_start_clamped_witness :
    (resize_start_frame 30 true (some 1000) ⟨"x", 0, 100, "t", false⟩).2.start
      ≤ (resize_start_frame 30 true (some 1000) ⟨"x", 0, 100, "t", false⟩).2.«end» ∧
    (resize_start_frame 30 true (some 1000) ⟨"x", 0, 100, "t", false⟩).2.«end»
      = (⟨"x", 0, 100, "t", false⟩ : Event).«end» ∧
    (∀ t : Int, true = true → some 1000 = some t →
      (resize_start_frame 30 true (some 1000) ⟨"x", 0, 100, "t", false⟩).2.start
        ≤ (⟨"x", 0, 100, "t", false⟩ : Event).«end» - 30) ∧
    (∀ t : Int, true = true → some 1000 = some t →
      (⟨"x", 0, 100, "t", false⟩ : Event).«end» - 30 < t →
      (resize_start_frame 30 true (some 1000) ⟨"x", 0, 100, "t", false⟩).2.start
        = (⟨"x", 0, 100, "t", false⟩ : Event).«end» - 30) :=
  resize_start_clamped 30 true (some 1000) ⟨"x", 0, 100, "t", false⟩
    (by decide) (by decide)

/-- Claim C7: the gesture re-classification override: for every pair of
states, `state_override` returns `Editing` whenever the new state is
`Editing` and returns the old state otherwise; in particular an
interaction already in `Editing` is never moved back to a drag state. -/
theorem state_override_editing_precedence
    (old_state new_state : FocusedEventState) :
    (new_state = FocusedEventState.Editing →
      state_override old_state new_state = FocusedEventState.Editing) ∧
    (new_state ≠ FocusedEventState.Editing →
      state_override old_state new_state = old_state) ∧
    state_override FocusedEventState.Editing new_state
      = FocusedEventState.Editing := by
  refine ⟨fun h => by simp [state_override, h],
          fun h => by simp [state_override, h], ?_⟩
  by_cases h : new_state = FocusedEventState.Editing <;>
    simp [state_override, h]

theorem state_override_editing_precedence_witness :
    (FocusedEventState.Editing = FocusedEventState.Editing →
      state_override FocusedEventState.Dragging FocusedEventState.Editing
        = FocusedEventState.Editing) ∧
    (FocusedEventState.Editing ≠ FocusedEventState.Editing →
      state_override FocusedEventState.Dragging FocusedEventState.Editing
        = FocusedEventState.Dragging) ∧
    state_override FocusedEventState.Editing FocusedEventState.Editing
      = FocusedEventState.Editing :=
  state_override_editing_precedence FocusedEventState.Dragging
    FocusedEventState.Editing

/-- Claim C8: within one frame's reconciliation both pending slots are
drained (so at most one commit and one deletion are applied per frame),
the commit is applied to the list before the deletion, and hence a
deletion requested in the same frame as a commit of the same identity
leaves no entry with that identity. -/
theorem reconcile_commit_before_delete
    (ui : UiMemory) (events : List Event) (e : Event)
    (hc : ui.commited = some e) (hd : ui.deleted = some e.id) :
    (apply_interacting_events ui events).2
      = remove_deleted_events (commit_updated_event events e) e.id ∧
    (∀ x ∈ (apply_interacting_events ui events).2, ¬ x.id = e.id) ∧
    (apply_interacting_events ui events).1.commited = none ∧
    (apply_interacting_events ui events).1.deleted = none := by
  refine ⟨?_, ?_, ?_, ?_⟩ <;>
    simp only [apply_interacting_events, take_commited_event,
      DeletedEvent.take, hc, hd]
  · intro x hx
    have := (List.mem_filter.mp hx).2
    simpa using this

theorem reconcile_commit_before_delete_witness :
    (apply_interacting_events ⟨none, some ⟨"a", 0, 10, "new", false⟩, some "a"⟩
        [⟨"a", 0, 10, "old", false⟩, ⟨"b", 1, 2, "t", false⟩]).2
      = remove_deleted_events
          (commit_updated_event [⟨"a", 0, 10, "old", false⟩, ⟨"b", 1, 2, "t", false⟩]
            ⟨"a", 0, 10, "new", false⟩)
          (Event.id ⟨"a", 0, 10, "new", false⟩) ∧
    (∀ x ∈ (apply_interacting_events
        ⟨none, some ⟨"a", 0, 10, "new", false⟩, some "a"⟩
        [⟨"a", 0, 10, "old", false⟩, ⟨"b", 1, 2, "t", false⟩]).2,
      ¬ x.id = Event.id ⟨"a", 0, 10, "new", false⟩) ∧
    (apply_interacting_events ⟨none, some ⟨"a", 0, 10, "new", false⟩, some "a"⟩
        [⟨"a", 0, 10, "old", false⟩, ⟨"b", 1, 2, "t", false⟩]).1.commited = none ∧
    (apply_interacting_events ⟨none, some ⟨"a", 0, 10, "new", false⟩, some "a"⟩
        [⟨"a", 0, 10, "old", false⟩, ⟨"b", 1, 2, "t", false⟩]).1.deleted = none :=
  reconcile_commit_before_delete
    ⟨none, some ⟨"a", 0, 10, "new", false⟩, some "a"⟩
    [⟨"a", 0, 10, "old", false⟩, ⟨"b", 1, 2, "t", false⟩]
    ⟨"a", 0, 10, "new", false⟩ rfl rfl

/-- Claim C9: discarding an active interaction removes only the
transient record; with no pending commit and no pending deletion, the
frame's reconciliation pass then leaves the authoritative list identical
entry for entry — a drag-created event that is discarded never reaches
the list, and a discarded edit leaves the original entry untouched. -/
theorem discard_preserves_authoritative_list
    (ui : UiMemory) (events : List Event)
    (hc : ui.commited = none) (hd : ui.deleted = none) :
    (apply_interacting_events (InteractingEvent.discard ui) events).2 = events ∧
    (InteractingEvent.discard ui).interacting = none ∧
    (InteractingEvent.discard ui).commited = none := by
  refine ⟨?_, rfl, ?_⟩ <;>
    simp [apply_interacting_events, InteractingEvent.discard,
      take_commited_event, DeletedEvent.take, hc, hd]

theorem discard_preserves_authoritative_list_witness :
    (apply_interacting_events
        (InteractingEvent.discard
          ⟨some ⟨⟨"n", 5, 6, "draft", false⟩, FocusedEventState.Dragging⟩,
            none, none⟩)
        [⟨"b", 1, 2, "t", false⟩]).2 = [⟨"b", 1, 2, "t", false⟩] ∧
    (InteractingEvent.discard
        ⟨some ⟨⟨"n", 5, 6, "draft", false⟩, FocusedEventState.Dragging⟩,
          none, none⟩).interacting = none ∧
    (InteractingEvent.discard
        ⟨some ⟨⟨"n", 5, 6, "draft", false⟩, FocusedEventState.Dragging⟩,
          none, none⟩).commited = none :=
  discard_preserves_authoritative_list
    ⟨some ⟨⟨"n", 5, 6, "draft", false⟩, FocusedEventState.Dragging⟩, none, none⟩
    [⟨"b", 1, 2, "t", false⟩] rfl rfl
